import Mathlib

/-!
Verification development for the SigmaTCP protocol bridge
(`hifiberrydsp/hardware/sigmatcp.py`).

The Python source is shallowly embedded: byte strings become `List Nat`
(each element a byte value), big-endian field extraction mirrors
`int.from_bytes`, Python exceptions become `Except` errors, and the SPI bus
is an explicit collaborator function.  `while` loops are embedded as
structural recursion on an explicit fuel argument; every initial call
supplies fuel that provably dominates the number of iterations the source
loop performs, so the fuel-exhausted branches are unreachable.
-/

/-- Opcode constants, from the module header of sigmatcp.py. -/
def COMMAND_READ : Nat := 0x0a

def COMMAND_READRESPONSE : Nat := 0x0b

def COMMAND_WRITE : Nat := 0x09

def COMMAND_EEPROM_FILE : Nat := 0xf0

def COMMAND_CHECKSUM : Nat := 0xf1

def COMMAND_CHECKSUM_RESPONSE : Nat := 0xf2

def COMMAND_EEPROM_CONTENT : Nat := 0xf3

def HEADER_SIZE : Nat := 14

/-- Python `int.from_bytes(bs, byteorder='big')` on a byte list. -/
def beBytes (l : List Nat) : Nat := l.foldl (fun acc b => acc * 256 + b) 0

/-- Python exceptions that the embedded handler code can raise. -/
inductive PyError where
  | typeError
  | unboundLocalError
deriving DecidableEq

/-- Client encoder `SigmaTCP.read_request(addr, length)` (lines 177-186):
a 14-byte header with `packet[0] = COMMAND_READ`, `packet[4] = 14`,
`packet[8..9]` the big-endian length and `packet[10..11]` the big-endian
address. -/
def read_request (addr length : Nat) : List Nat :=
  [COMMAND_READ, 0, 0, 0, 14, 0, 0, 0,
   (length >>> 8) % 256, length % 256,
   (addr >>> 8) % 256, addr % 256, 0, 0]

/-- The address slice the server's `handle_read` extracts:
`int.from_bytes(data[10:12], byteorder='big')` (line 383). -/
def decode_read_addr (data : List Nat) : Nat := beBytes ((data.drop 10).take 2)

/-- The length slice the server's `handle_read` extracts:
`int.from_bytes(data[6:10], byteorder='big')` (line 384). -/
def decode_read_length (data : List Nat) : Nat := beBytes ((data.drop 6).take 4)

/-- The address slice `handle_write` extracts: `data[12:14]` (line 419). -/
def decode_write_addr (data : List Nat) : Nat := beBytes ((data.drop 12).take 2)

/-- The length slice `handle_write` extracts: `data[8:12]` (line 420). -/
def decode_write_length (data : List Nat) : Nat := beBytes ((data.drop 8).take 4)

/-- `SigmaTCPHandler._response_packet(command, addr, data_length)`
(lines 555-567): 14-byte header, `[4] = 14`, `[5] = 1`, big-endian
data length at `[8..9]` and address at `[10..11]`. -/
def response_packet (command addr data_length : Nat) : List Nat :=
  [command, 0, 0, 0, 14, 1, 0, 0,
   (data_length >>> 8) % 256, data_length % 256,
   (addr >>> 8) % 256, addr % 256, 0, 0]

/-- The SPI request `spi_read` builds (lines 395-404): control byte 1,
the two address bytes, then `length` zero-fill bytes. -/
def spi_read_request (addr length : Nat) : List Nat :=
  1 :: (addr >>> 8) % 256 :: addr % 256 :: List.replicate length 0

/-- The value `spi_read` returns (lines 406-416), given the raw full-duplex
response `resp` of the bus: a READRESPONSE header followed by
`resp[3:]`. -/
def spi_read_result (addr : Nat) (resp : List Nat) : List Nat :=
  response_packet COMMAND_READRESPONSE addr (resp.drop 3).length ++ resp.drop 3

/-- Chunking loop of `SigmaTCPHandler.write_data(addr, data)`
(lines 477-516), returning the list of SPI transfer requests issued, in
order.  Each request is `0 :: a1 :: a0 :: chunk` exactly as the source
builds `spi_request`.  If the request is shorter than 4096 bytes it goes
out whole; otherwise the first 4003 bytes (header plus 4000 data bytes)
are sent, the address advances by 1000 cells, and the loop continues on
the remaining data.  The `while` loop is embedded with a fuel argument;
each iteration beyond the first consumes 4000 data bytes, so the fuel
`data.length / 4000 + 1` issued by `write_data` below dominates the
iteration count and the fuel-exhausted arm is never reached. -/
def write_data_loop : Nat → Nat → List Nat → List (List Nat)
  | fuel, addr, data =>
    let spi_request := 0 :: (addr >>> 8) % 256 :: addr % 256 :: data
    if spi_request.length < 4096 then [spi_request]
    else
      match fuel with
      | 0 => []
      | f + 1 => spi_request.take 4003 :: write_data_loop f (addr + 1000) (data.drop 4000)

/-- `SigmaTCPHandler.write_data(addr, data)` as the list of SPI requests
it issues. -/
def write_data (addr : Nat) (data : List Nat) : List (List Nat) :=
  write_data_loop (data.length / 4000 + 1) addr data

/-- Effective device address carried by a transfer request: its second and
third bytes are the high and low address bytes (`a1`, `a0`). -/
def reqAddr (req : List Nat) : Nat := req.getD 1 0 * 256 + req.getD 2 0

/-- Reference device-memory model (spec 4.2 / 3): a memory cell is one
16-bit-addressed word of 4 bytes, so a transfer of `d` at cell address `a`
overwrites byte positions `a * 4` through `a * 4 + d.length - 1`. -/
def writeAt (mem : Nat → Nat) (a : Nat) (d : List Nat) : Nat → Nat :=
  fun pos => if a * 4 ≤ pos ∧ pos < a * 4 + d.length then d.getD (pos - a * 4) 0 else mem pos

/-- Apply one raw SPI write request to the reference device memory. -/
def applyReq (mem : Nat → Nat) (req : List Nat) : Nat → Nat :=
  writeAt mem (reqAddr req) (req.drop 3)

/-- `SigmaTCPHandler.write_eeprom_content(data)` (lines 431-448).  The
source's first statement is `tempfile = tempfile.NamedTemporaryFile(...)`:
assigning the name `tempfile` makes it a function-local variable for the
whole body, so the right-hand side references the local before assignment
and every call raises `UnboundLocalError` immediately — before any
temporary file is created, any byte is written, or any `except IOError`
handler could run. -/
def write_eeprom_content (_data : List Nat) : Except PyError (List Nat) :=
  Except.error PyError.unboundLocalError

/-- `SigmaTCPHandler.handle_write(data)` (lines 418-429).  When the
declared length field `data[8:12]` is zero, the fallback line
`length = length(data) - 14` calls the integer `length` as a function and
raises `TypeError` before `write_data` is reached.  Otherwise the payload
`data[14:]` is written; the returned pair carries the target address and
the SPI requests `write_data` issues. -/
def handle_write (data : List Nat) : Except PyError (Nat × List (List Nat)) :=
  let addr := decode_write_addr data
  let length := decode_write_length data
  if length = 0 then Except.error PyError.typeError
  else Except.ok (addr, write_data addr (data.drop 14))

/-- Device profile collaborator (spec 6): register addresses and program
memory geometry of the DSP, provided by the out-of-scope `adau145x`
module. -/
structure Dsp where
  program_addr : Nat
  program_length : Nat
  word_length : Nat
  hibernate_register : Nat
  killcore_register : Nat
  startcore_register : Nat

/-- Bus collaborator for the checksum sequencer: given the index of the
SPI call (its position in the run) and the request bytes, either the
full-duplex response or a raised bus error. -/
def Bus : Type := Nat → List Nat → Except Unit (List Nat)

/-- Issue a list of SPI write requests in order, recording each request
and stopping at the first bus error (the Python exception propagates). -/
def issueAll (bus : Bus) : List (List Nat) → List (List Nat) → List (List Nat) × Except Unit Unit
  | reqs, [] => (reqs, Except.ok ())
  | reqs, r :: rs =>
    match bus reqs.length r with
    | Except.error e => (reqs ++ [r], Except.error e)
    | Except.ok _ => issueAll bus (reqs ++ [r]) rs

/-- The `while datalen < ...` loop of `program_checksum` (lines 534-540):
read a 2048-byte block at `addr`, feed the value returned by `spi_read`
(header included) to the digest, advance `addr` by `2048 / word_length`
cells and `datalen` by 2048.  `hashIn` accumulates every byte passed to
`m.update`; a read failure propagates immediately.  Each iteration adds
2048 to `datalen`, so fuel dominates the iteration count whenever
`(total - datalen + 2047) / 2048 ≤ fuel`; `program_checksum` supplies
`total / 2048 + 1`. -/
def checksumBlocks (bus : Bus) (wl total : Nat) :
    Nat → Nat → Nat → List (List Nat) → List Nat → List (List Nat) × Except Unit (List Nat)
  | fuel, addr, datalen, reqs, hashIn =>
    if datalen < total then
      match fuel with
      | 0 => (reqs, Except.error ())
      | f + 1 =>
        match bus reqs.length (spi_read_request addr 2048) with
        | Except.error e => (reqs ++ [spi_read_request addr 2048], Except.error e)
        | Except.ok resp =>
          checksumBlocks bus wl total f (addr + 2048 / wl) (datalen + 2048)
            (reqs ++ [spi_read_request addr 2048]) (hashIn ++ spi_read_result addr resp)
    else (reqs, Except.ok hashIn)

/-- `SigmaTCPHandler.program_checksum` (lines 518-546) together with
`_kill_dsp` (569-576) and `_start_dsp` (578-582).  Returns the list of SPI
requests issued and either the digest input (all bytes fed to the MD5
object, which determine the digest) or the propagated bus error.  The
source has no cleanup handler: after `_kill_dsp`, a read failure inside
the block loop propagates without `_start_dsp` ever running. -/
def program_checksum (bus : Bus) (dsp : Dsp) : List (List Nat) × Except Unit (List Nat) :=
  let total := dsp.program_length * dsp.word_length
  match issueAll bus []
      (write_data dsp.hibernate_register [0, 1] ++
       write_data dsp.killcore_register [0, 0] ++
       write_data dsp.killcore_register [0, 1]) with
  | (reqs1, Except.error e) => (reqs1, Except.error e)
  | (reqs1, Except.ok _) =>
    match checksumBlocks bus dsp.word_length total (total / 2048 + 1) dsp.program_addr 0 reqs1 [] with
    | (reqs2, Except.error e) => (reqs2, Except.error e)
    | (reqs2, Except.ok hashIn) =>
      match issueAll bus reqs2
          (write_data dsp.startcore_register [0, 0] ++
           write_data dsp.startcore_register [0, 1]) with
      | (reqs3, Except.error e) => (reqs3, Except.error e)
      | (reqs3, Except.ok _) => (reqs3, Except.ok hashIn)

/-- A bus that never fails, responding as the pure function `f`. -/
def pureBus (f : List Nat → List Nat) : Bus := fun _ req => Except.ok (f req)

/-- Spec-side description of the digest input produced by `m` blocks read
from base address `addr` with word length `wl` over the pure bus `f`:
block `k` sits at cell address `addr + (2048 / wl) * k` and contributes
the full `spi_read` value (READRESPONSE header plus the block's bytes). -/
def blockStream (f : List Nat → List Nat) (wl addr m : Nat) : List Nat :=
  ((List.range m).map fun k =>
    spi_read_result (addr + 2048 / wl * k)
      (f (spi_read_request (addr + 2048 / wl * k) 2048))).flatten

/-- Spec-side digest input of a whole `program_checksum` run over a pure
bus: `ceil(total / 2048)` blocks starting at the program base address. -/
def checksumHashInput (f : List Nat → List Nat) (dsp : Dsp) : List Nat :=
  blockStream f dsp.word_length dsp.program_addr
    ((dsp.program_length * dsp.word_length + 2047) / 2048)

/-- True when an SPI request is a write (control byte 0) targeting
register `reg`. -/
def isWriteTo (reg : Nat) (req : List Nat) : Prop :=
  req.take 3 = [0, (reg >>> 8) % 256, reg % 256]

instance (reg : Nat) (req : List Nat) : Decidable (isWriteTo reg req) := by
  unfold isWriteTo; infer_instance

/-- Semantic operation dispatched by the connection handler. -/
inductive Op where
  | read (addr length : Nat)
  | write (addr : Nat) (payload : List Nat)
  | eepromFile (filename : List Nat)
  | checksum
  | eepromContent (payload : List Nat)
deriving DecidableEq

/-- External collaborators of the connection handler: the SPI bus double
(pure full-duplex exchange), the filesystem-and-XML collaborator behind
`write_eeprom_file`, and the digest `program_checksum` would return for
the CHECKSUM opcode (abstracted, since MD5 is out of scope here and the
checksum sequencer is modelled separately above). -/
structure Env where
  xfer : List Nat → List Nat
  eepromFileResult : List Nat → List Nat
  digest : List Nat

/-- Connection-handler state at the top of the `while not(finished)` loop
of `SigmaTCPHandler.handle` (lines 274-380).  `data = none` models Python
`data is None`; `result = none` models the local `result` never having
been assigned (referencing it then raises `UnboundLocalError`), while
`result = some r` models an assigned value, `r = none` being Python
`None`. -/
structure HState where
  deliveries : List (List Nat)
  data : Option (List Nat)
  readMore : Bool
  result : Option (Option (List Nat))
  ops : List Op
  sends : List (List Nat)

/-- Observable outcome of a handler run: operations dispatched, response
byte strings sent, and whether the handler died on an uncaught
exception. -/
structure RunOut where
  ops : List Op
  sends : List (List Nat)
  crashed : Bool
deriving DecidableEq

/-- Result of one loop iteration. -/
inductive StepRes where
  | next (st : HState)
  | stop (o : RunOut)

/-- Tail of a dispatching iteration (lines 366-375): evaluate
`if (result is not None) and (len(result) > 0): send(result)` on the slot
value `res`, then set `data` to the leftover buffer.  If the local
`result` has never been assigned (the unknown-opcode fall-through on a
fresh connection) the reference raises `UnboundLocalError` and the
handler crashes. -/
def dispatchEnd (st : HState) (res : Option (Option (List Nat)))
    (buffer : Option (List Nat)) : StepRes :=
  match res with
  | none => StepRes.stop ⟨st.ops, st.sends, true⟩
  | some r =>
    let sends :=
      match r with
      | some bs => if 0 < bs.length then st.sends ++ [bs] else st.sends
      | none => st.sends
    StepRes.next { st with result := some r, sends := sends, data := buffer }

/-- `spi_read` as used by `handle_read`, over the pure bus double. -/
def spi_read (env : Env) (addr length : Nat) : List Nat :=
  spi_read_result addr (env.xfer (spi_read_request addr length))

/-- `SigmaTCPHandler.handle_read(data)` (lines 382-391). -/
def handle_read (env : Env) (data : List Nat) : List Nat :=
  spi_read env (decode_read_addr data) (decode_read_length data)

/-- Body of one `handle` iteration from line 297 on, applied to the
accumulated byte string `data` (the `buffer = None` reinitialization has
already happened; `st.data`/`st.readMore` are overwritten on every exit
path).  Mirrors the source branch by branch, including the quirks:
the READ / CHECKSUM / EEPROM_FILE branches never set `buffer`, so
pipelined leftover bytes are dropped there; the EEPROM_FILE branch does
not wait for its payload; `handle_write` raises on a zero length field;
`write_eeprom_content` always raises (see its definition, the operand
`data[14:command_length]` is recorded as the attempted dispatch); an
unknown opcode falls through to the `result` check with a stale or
unassigned `result`.  The duplicated `COMMAND_EEPROM_FILE` elif in the
source (lines 338-341) is unreachable and has no separate arm here. -/
def processData (env : Env) (st : HState) (data : List Nat) : StepRes :=
  if 0 < data.length ∧ data.length < 14 then
    StepRes.next { st with data := some data, readMore := true }
  else if data.getD 0 0 = COMMAND_READ then
    let command_length := beBytes ((data.drop 1).take 4)
    if 0 < command_length ∧ data.length < command_length then
      StepRes.next { st with data := some data, readMore := true }
    else
      dispatchEnd
        { st with ops := st.ops ++ [Op.read (decode_read_addr data) (decode_read_length data)] }
        (some (some (handle_read env data))) none
  else if data.getD 0 0 = COMMAND_WRITE then
    let command_length := beBytes ((data.drop 3).take 4)
    let buffer : Option (List Nat) :=
      if command_length < data.length then some (data.drop command_length) else none
    let data' := if command_length < data.length then data.take command_length else data
    if 0 < command_length ∧ data'.length < command_length then
      StepRes.next { st with data := some data', readMore := true }
    else
      match handle_write data' with
      | Except.error _ => StepRes.stop ⟨st.ops, st.sends, true⟩
      | Except.ok (addr, _) =>
        dispatchEnd { st with ops := st.ops ++ [Op.write addr (data'.drop 14)] }
          (some none) buffer
  else if data.getD 0 0 = COMMAND_EEPROM_FILE then
    let filename := (data.drop 14).take (data.getD 1 0)
    dispatchEnd { st with ops := st.ops ++ [Op.eepromFile filename] }
      (some (some (env.eepromFileResult filename))) none
  else if data.getD 0 0 = COMMAND_CHECKSUM then
    dispatchEnd { st with ops := st.ops ++ [Op.checksum] }
      (some (some (response_packet COMMAND_CHECKSUM_RESPONSE 0 16 ++ env.digest))) none
  else if data.getD 0 0 = COMMAND_EEPROM_CONTENT then
    let command_length := beBytes ((data.drop 3).take 4)
    let buffer : Option (List Nat) :=
      if command_length < data.length then some (data.drop command_length) else none
    let data' := if command_length < data.length then data.take command_length else data
    if 0 < command_length ∧ data'.length < command_length then
      StepRes.next { st with data := some data', readMore := true }
    else
      match write_eeprom_content ((data'.drop 14).take (command_length - 14)) with
      | Except.error _ =>
        StepRes.stop ⟨st.ops ++ [Op.eepromContent ((data'.drop 14).take (command_length - 14))],
          st.sends, true⟩
      | Except.ok res =>
        dispatchEnd { st with ops := st.ops ++ [Op.eepromContent ((data'.drop 14).take (command_length - 14))] }
          (some (some res)) buffer
  else
    dispatchEnd st st.result none

/-- One iteration of the `while not(finished)` loop: the two `recv`
stages (lines 285-295), then the frame processing.  A `recv` on an
exhausted delivery list blocks forever in Python (or returns an empty
string on a closed connection, which sets `finished`); either way no
further operation is dispatched, so the model stops the run there. -/
def loopStep (env : Env) (st : HState) : StepRes :=
  match st.data with
  | none =>
    match st.deliveries with
    | [] => StepRes.stop ⟨st.ops, st.sends, false⟩
    | d :: rest =>
      if d.length = 0 then StepRes.stop ⟨st.ops, st.sends, false⟩
      else processData env { st with deliveries := rest, data := none } d
  | some data =>
    if st.readMore then
      match st.deliveries with
      | [] => StepRes.stop ⟨st.ops, st.sends, false⟩
      | d :: rest =>
        processData env { st with deliveries := rest, data := none, readMore := false }
          (data ++ d)
    else processData env { st with data := none } data

/-- Run the handler loop for at most `fuel` iterations; `none` means the
fuel ran out before the run settled. -/
def runLoop (env : Env) : Nat → HState → Option RunOut
  | 0, _ => none
  | fuel + 1, st =>
    match loopStep env st with
    | StepRes.stop o => some o
    | StepRes.next st' => runLoop env fuel st'

/-- Run a fresh connection handler against a list of deliveries (the
successive byte strings `recv` returns). -/
def runHandler (env : Env) (fuel : Nat) (deliveries : List (List Nat)) : Option RunOut :=
  runLoop env fuel ⟨deliveries, none, false, none, [], []⟩

/-- Concrete environment for the closed scenario theorems: the bus echoes
the request (an all-zero memory device), the EEPROM-file collaborator
reports success. -/
def envId : Env := ⟨id, fun _ => [1], []⟩

/-- Concrete device profile for the closed checksum scenarios: program
memory of 512 words of 4 bytes (one 2048-byte block) at base address 0;
hibernate, kill-core and start-core registers at 100, 101 and 102. -/
def dspEx : Dsp := ⟨0, 512, 4, 100, 101, 102⟩

/-- A bus whose fourth SPI call (index 3 — the first program-memory block
read, after the three halt writes) fails; every other call succeeds. -/
def busFail3 : Bus := fun i _ => if i = 3 then Except.error () else Except.ok []

/-- A bus double that answers every transfer with the 5 bytes
`[9, 9, 9, 7, 7]`: after the 3 echoed header bytes are stripped, every
block read returns the memory bytes `[7, 7]`. -/
def shortMem : List Nat → List Nat := fun _ => [9, 9, 9, 7, 7]

/-- The request bytes of the spec's concrete READ scenario:
`[READ, 0, 0, 0, 14, 0, 0, 0, 0, 0, 4, 0, 0, 0]`. -/
def c6Frame : List Nat := [0x0a, 0, 0, 0, 14, 0, 0, 0, 0, 0, 4, 0, 0, 0]

/-- A well-formed 14-byte READ frame for address 4, length 0, exactly as
`read_request 4 0` produces it. -/
def readFrame4 : List Nat := [0x0a, 0, 0, 0, 14, 0, 0, 0, 0, 0, 0, 4, 0, 0]

/-- A well-formed 14-byte READ frame for address 5, length 0. -/
def readFrame5 : List Nat := [0x0a, 0, 0, 0, 14, 0, 0, 0, 0, 0, 0, 5, 0, 0]

/-- A 14-byte frame whose opcode byte 0x05 is none of the known opcodes. -/
def unknownFrame : List Nat := [0x05, 0, 0, 0, 0, 0, 0, 0, 0, 0, 0, 0, 0, 0]

/-- A complete EEPROM_FILE frame: filename length 2, filename bytes
"ab" (97, 98), trailing zero byte — 17 bytes total. -/
def eepromFileFrame : List Nat :=
  [0xf0, 2, 0, 0, 0, 0, 0, 0, 0, 0, 0, 0, 0, 0, 97, 98, 0]

/-- A complete 16-byte WRITE frame: totalLength field 16, declared data
length 2, address 7, payload bytes 5 and 6. -/
def writeFrame16 : List Nat := [0x09, 0, 0, 0, 0, 0, 16, 0, 0, 0, 0, 2, 0, 7, 5, 6]

/-- A 14-byte WRITE frame whose declared data-length field `data[8:12]`
is zero (totalLength field 14, no payload). -/
def zeroWriteFrame : List Nat := [0x09, 0, 0, 0, 0, 0, 14, 0, 0, 0, 0, 0, 0, 0]

/-- Reassembling a 16-bit value from its two extracted bytes. -/
theorem maskAddr_eq (addr : Nat) (h : addr < 65536) :
    (addr >>> 8) % 256 * 256 + addr % 256 = addr := by
  rw [Nat.shiftRight_eq_div_pow]
  norm_num
  omega

/-- C9 counterexample: the claim quantifies over every length, but the
encoder packs the length into two bytes, so requesting length 65536
decodes as length 0 on the server side. -/
theorem c9_length_65536_lost :
    decode_read_length (read_request 0 65536) = 0 ∧ (0 : Nat) ≠ 65536 := by
  constructor
  · decide
  · decide

/-- C9 (amended): for every 16-bit address and every length below 2^16,
the server-side decode of `read_request` (the slices `handle_read`
extracts) recovers the READ opcode, the address and the length. -/
theorem c9_read_request_roundtrip (addr length : Nat)
    (ha : addr < 65536) (hl : length < 65536) :
    (read_request addr length).getD 0 0 = COMMAND_READ ∧
    decode_read_addr (read_request addr length) = addr ∧
    decode_read_length (read_request addr length) = length := by
  refine ⟨rfl, ?_, ?_⟩
  · simp [decode_read_addr, read_request, beBytes]
    exact maskAddr_eq addr ha
  · simp [decode_read_length, read_request, beBytes]
    rw [Nat.shiftRight_eq_div_pow]
    norm_num
    omega

/-- Witness for `c9_read_request_roundtrip` at address 1024, length 7. -/
theorem c9_read_request_roundtrip_witness :
    (1024 : Nat) < 65536 ∧ (7 : Nat) < 65536 ∧
    ((read_request 1024 7).getD 0 0 = COMMAND_READ ∧
     decode_read_addr (read_request 1024 7) = 1024 ∧
     decode_read_length (read_request 1024 7) = 7) :=
  ⟨by decide, by decide, c9_read_request_roundtrip 1024 7 (by decide) (by decide)⟩

/-- C2: `write_eeprom_content` never returns the failure byte b'\x00'
(nor anything else): the local name `tempfile` shadows the module, so
every call raises `UnboundLocalError` before the temporary file exists —
the exception is not an `IOError` and propagates past the documented
boundary. -/
theorem c2_eeprom_content_always_raises :
    (∀ data : List Nat, write_eeprom_content data = Except.error PyError.unboundLocalError) ∧
    write_eeprom_content [] ≠ Except.ok [0] :=
  ⟨fun _ => rfl, fun h => nomatch h⟩

/-- C10: every WRITE frame whose declared 4-byte data-length field is
zero makes `handle_write` raise (`length = length(data) - 14` applies the
integer `length` as a function), so the bus write is never reached. -/
theorem c10_zero_length_write_raises (data : List Nat)
    (h : decode_write_length data = 0) :
    handle_write data = Except.error PyError.typeError := by
  simp [handle_write, h]

/-- Witness for `c10_zero_length_write_raises` on a concrete zero-length
WRITE frame. -/
theorem c10_zero_length_write_raises_witness :
    decode_write_length zeroWriteFrame = 0 ∧
    handle_write zeroWriteFrame = Except.error PyError.typeError :=
  ⟨by decide, c10_zero_length_write_raises zeroWriteFrame (by decide)⟩

/-- C6 counterexample: the spec's byte list puts the value 4 at index 10,
which is the HIGH address byte of the slice `data[10:12]` that
`handle_read` decodes, so the frame dispatches a read of address 1024,
not address 4. -/
theorem c6_address_decodes_to_1024_not_4 :
    runHandler envId 2 [c6Frame]
        = some ⟨[Op.read 1024 0], [response_packet COMMAND_READRESPONSE 1024 0], false⟩ ∧
    decode_read_addr c6Frame = 1024 ∧ (1024 : Nat) ≠ 4 := by
  refine ⟨by decide, by decide, by decide⟩

/-- C6 (amended): the 14 request bytes `[READ,0,0,0,14,0,0,0,0,0,4,0,0,0]`
are recognized as one complete frame (a single READ dispatch happens with
no leftover reprocessing) and decode with opcode READ, dataLength 0 and
address 1024. -/
theorem c6_frame_recognized :
    c6Frame.length = 14 ∧ c6Frame.getD 0 0 = COMMAND_READ ∧
    decode_read_length c6Frame = 0 ∧ decode_read_addr c6Frame = 1024 ∧
    runHandler envId 2 [c6Frame]
      = some ⟨[Op.read 1024 0], [response_packet COMMAND_READRESPONSE 1024 0], false⟩ := by
  refine ⟨by decide, by decide, by decide, by decide, by decide⟩

/-- C7: an unknown opcode does not make the handler a silent no-op.  On a
fresh connection the fall-through reaches `if (result is not None)` with
the local `result` never assigned, raising `UnboundLocalError` (the run
crashes); if an earlier frame assigned `result`, the stale response is
sent to the client a second time. -/
theorem c7_unknown_opcode_crashes_or_resends :
    runHandler envId 2 [unknownFrame] = some ⟨[], [], true⟩ ∧
    runHandler envId 3 [readFrame4, unknownFrame]
      = some ⟨[Op.read 4 0],
          [response_packet COMMAND_READRESPONSE 4 0, response_packet COMMAND_READRESPONSE 4 0],
          false⟩ := by
  refine ⟨by decide, by decide⟩

/-- C4 counterexample: a complete 17-byte EEPROM_FILE frame (filename
"ab") delivered whole dispatches `write_eeprom_file("ab")`, but split
after 15 bytes it dispatches `write_eeprom_file("a")` — the EEPROM_FILE
branch never waits for the bytes announced by the filename-length field,
so the dispatch results differ. -/
theorem c4_eeprom_file_split_differs :
    runHandler envId (1 + 2) [eepromFileFrame.take 15, eepromFileFrame.drop 15]
      = some ⟨[Op.eepromFile [97]], [[1]], false⟩ ∧
    runHandler envId (1 + 1) [eepromFileFrame]
      = some ⟨[Op.eepromFile [97, 98]], [[1]], false⟩ ∧
    runHandler envId (1 + 2) [eepromFileFrame.take 15, eepromFileFrame.drop 15]
      ≠ runHandler envId (1 + 1) [eepromFileFrame] := by
  refine ⟨by decide, by decide, by decide⟩

/-- C5 counterexample: two complete READ frames in one delivery produce a
single dispatch — the READ branch never sets `buffer`, so the 14 leftover
bytes of the second frame are discarded instead of seeding the next
frame. -/
theorem c5_read_pipelining_discards :
    runHandler envId 2 [readFrame4 ++ readFrame5]
      = some ⟨[Op.read 4 0], [response_packet COMMAND_READRESPONSE 4 0], false⟩ ∧
    ([Op.read 4 0] : List Op) ≠ [Op.read 4 0, Op.read 5 0] := by
  refine ⟨by decide, by decide⟩

set_option maxRecDepth 8000 in
/-- C1: with the three halt writes succeeding and the first program-block
read failing (`busFail3`), `program_checksum` issues the complete halt
sequence (hibernate write, two kill-core writes) and the failing read,
then propagates the error with NO start-core write ever issued — the
source has no try/finally, so the resume sequence is skipped on the error
path and the core stays halted. -/
theorem c1_checksum_read_failure_skips_start :
    (program_checksum busFail3 dspEx).2 = Except.error () ∧
    (program_checksum busFail3 dspEx).1.map (fun r => r.take 3)
      = [[0, 0, 100], [0, 0, 101], [0, 0, 101], [1, 0, 0]] ∧
    ∀ r ∈ (program_checksum busFail3 dspEx).1, ¬ isWriteTo 102 r := by
  refine ⟨rfl, by decide, by decide⟩

set_option maxRecDepth 8000 in
/-- C8 counterexample: against a bus whose every block read returns the
memory bytes `[7, 7]`, the digest input of `program_checksum` is the full
`spi_read` return value — a 14-byte READRESPONSE packet followed by the
memory bytes — not the memory bytes alone, so bytes other than the read
memory enter the hash. -/
theorem c8_hash_includes_headers :
    (program_checksum (pureBus shortMem) dspEx).2
      = Except.ok (response_packet COMMAND_READRESPONSE 0 2 ++ [7, 7]) ∧
    response_packet COMMAND_READRESPONSE 0 2 ++ [7, 7] ≠ [7, 7] := by
  refine ⟨rfl, by decide⟩

/-- Over a pure bus, issuing a request list records it verbatim and
succeeds. -/
theorem issueAll_pureBus (f : List Nat → List Nat) :
    ∀ (rs reqs : List (List Nat)), issueAll (pureBus f) reqs rs = (reqs ++ rs, Except.ok ()) := by
  intro rs
  induction rs with
  | nil => intro reqs; simp [issueAll]
  | cons r rs ih =>
    intro reqs
    simp [issueAll, pureBus, ih]

/-- Peeling the first block off the spec-side digest-input stream. -/
theorem blockStream_succ (f : List Nat → List Nat) (wl addr m : Nat) :
    blockStream f wl addr (m + 1)
      = spi_read_result addr (f (spi_read_request addr 2048))
          ++ blockStream f wl (addr + 2048 / wl) m := by
  unfold blockStream
  rw [List.range_succ_eq_map]
  simp only [List.map_cons, List.map_map, List.flatten_cons, Nat.mul_zero, Nat.add_zero]
  congr 2
  apply List.map_congr_left
  intro k _
  have hx : addr + 2048 / wl * (k + 1) = addr + 2048 / wl + 2048 / wl * k := by ring
  simp [Function.comp, hx]

/-- The block-read loop over a pure bus produces exactly the spec-side
stream: one `spi_read` value per 2048-byte block, blocks advancing by
`2048 / wl` cells, `ceil((total - datalen) / 2048)` blocks in all. -/
theorem checksumBlocks_pureBus (f : List Nat → List Nat) (wl total : Nat) :
    ∀ fuel addr datalen reqs h,
      (total - datalen + 2047) / 2048 ≤ fuel →
      (checksumBlocks (pureBus f) wl total fuel addr datalen reqs h).2
        = Except.ok (h ++ blockStream f wl addr ((total - datalen + 2047) / 2048)) := by
  intro fuel
  induction fuel with
  | zero =>
    intro addr datalen reqs h hf
    have hdt : ¬ datalen < total := by omega
    have hm : (total - datalen + 2047) / 2048 = 0 := by omega
    simp [checksumBlocks, hdt, hm, blockStream]
  | succ fuel ih =>
    intro addr datalen reqs h hf
    by_cases hd : datalen < total
    · have hstep : (total - datalen + 2047) / 2048
          = (total - (datalen + 2048) + 2047) / 2048 + 1 := by omega
      simp only [checksumBlocks, if_pos hd, pureBus]
      rw [ih (addr + 2048 / wl) (datalen + 2048) _ _ (by omega)]
      rw [hstep, blockStream_succ]
      simp [List.append_assoc]
    · have hm : (total - datalen + 2047) / 2048 = 0 := by omega
      simp [checksumBlocks, hd, hm, blockStream]

/-- C8 (amended): over any pure bus and any device profile, the digest of
`program_checksum` is computed over the concatenation, in address order,
of the full per-block `spi_read` values — a 14-byte READRESPONSE header
followed by the block's memory bytes — for consecutive blocks starting at
the program base address, advancing `2048 / wordLength` cells per block,
until at least `programLength * wordLength` bytes are covered.  The
response headers enter the hash alongside the memory bytes. -/
theorem c8_checksum_hashes_response_packets (f : List Nat → List Nat) (dsp : Dsp) :
    (program_checksum (pureBus f) dsp).2 = Except.ok (checksumHashInput f dsp) := by
  unfold program_checksum
  simp only [issueAll_pureBus]
  rcases hq : checksumBlocks (pureBus f) dsp.word_length
      (dsp.program_length * dsp.word_length) (dsp.program_length * dsp.word_length / 2048 + 1)
      dsp.program_addr 0
      ([] ++ (write_data dsp.hibernate_register [0, 1] ++
        write_data dsp.killcore_register [0, 0] ++ write_data dsp.killcore_register [0, 1])) []
      with ⟨q, e⟩
  have he := congrArg Prod.snd hq
  rw [checksumBlocks_pureBus f dsp.word_length (dsp.program_length * dsp.word_length)
      _ _ _ _ _ (by omega)] at he
  simp only at he
  rw [← he]
  simp [checksumHashInput]

/-- Two writes whose byte ranges are adjacent merge into one write of the
concatenated payload. -/
theorem writeAt_merge (mem : Nat → Nat) (a b : Nat) (d1 d2 : List Nat)
    (hb : b * 4 = a * 4 + d1.length) (pos : Nat) :
    writeAt (writeAt mem a d1) b d2 pos = writeAt mem a (d1 ++ d2) pos := by
  simp only [writeAt, List.length_append]
  by_cases h2 : b * 4 ≤ pos ∧ pos < b * 4 + d2.length
  · rw [if_pos h2, if_pos (by omega)]
    rw [List.getD_append_right _ _ _ _ (by omega)]
    congr 1
    omega
  · rw [if_neg h2]
    by_cases h1 : a * 4 ≤ pos ∧ pos < a * 4 + d1.length
    · rw [if_pos h1, if_pos (by omega)]
      rw [List.getD_append _ _ _ _ (by omega)]
    · rw [if_neg h1, if_neg (by omega)]

/-- Applying a raw write request is a `writeAt` at its two address
bytes. -/
theorem applyReq_cons (mem : Nat → Nat) (hi lo : Nat) (d : List Nat) :
    applyReq mem (0 :: hi :: lo :: d) = writeAt mem (hi * 256 + lo) d := by
  simp [applyReq, reqAddr]

/-- The chunked write loop leaves the reference device memory in the same
state as the single unchunked request, for any payload whose byte range
stays inside the 16-bit cell space and any sufficient fuel. -/
theorem write_data_loop_semantics :
    ∀ fuel addr data, data.length ≤ 4000 * fuel + 4092 → addr * 4 + data.length ≤ 262144 →
      ∀ mem pos, ((write_data_loop fuel addr data).foldl applyReq mem) pos
        = applyReq mem (0 :: (addr >>> 8) % 256 :: addr % 256 :: data) pos := by
  intro fuel
  induction fuel with
  | zero =>
    intro addr data hfuel haddr mem pos
    have hshort : (0 :: (addr >>> 8) % 256 :: addr % 256 :: data).length < 4096 := by
      simp; omega
    simp only [write_data_loop]
    rw [if_pos hshort]
    simp
  | succ fuel ih =>
    intro addr data hfuel haddr mem pos
    by_cases hshort : (0 :: (addr >>> 8) % 256 :: addr % 256 :: data).length < 4096
    · simp only [write_data_loop]
      rw [if_pos hshort]
      simp
    · have hlen : 4093 ≤ data.length := by simp at hshort; omega
      have ha16 : addr < 65536 := by omega
      have ha16' : addr + 1000 < 65536 := by omega
      simp only [write_data_loop]
      rw [if_neg hshort]
      simp only [List.take_succ_cons, List.foldl_cons]
      rw [ih (addr + 1000) (data.drop 4000) (by simp; omega) (by simp; omega)]
      rw [applyReq_cons, applyReq_cons, applyReq_cons]
      rw [maskAddr_eq _ ha16, maskAddr_eq _ ha16']
      rw [writeAt_merge mem addr (addr + 1000) (data.take 4000) (data.drop 4000)
          (by simp [List.length_take]; omega)]
      rw [List.take_append_drop]

/-- Chunk `k` of the chunked write carries address `addr + 1000 * k`:
address advancement stays consistent with the 4000-byte data offset
advancement (4000 bytes = 1000 cells of 4 bytes). -/
theorem write_data_loop_addrs :
    ∀ fuel addr data, 1 ≤ data.length → data.length ≤ 4000 * fuel + 4092 →
      addr * 4 + data.length ≤ 262144 →
      ∀ k, k < (write_data_loop fuel addr data).length →
        reqAddr ((write_data_loop fuel addr data).getD k []) = addr + 1000 * k := by
  intro fuel
  induction fuel with
  | zero =>
    intro addr data h1 hfuel haddr k hk
    have hshort : (0 :: (addr >>> 8) % 256 :: addr % 256 :: data).length < 4096 := by
      simp; omega
    simp only [write_data_loop] at hk ⊢
    rw [if_pos hshort] at hk ⊢
    simp at hk
    have hk0 : k = 0 := by omega
    subst hk0
    simp [reqAddr]
    rw [maskAddr_eq _ (by omega)]
  | succ fuel ih =>
    intro addr data h1 hfuel haddr k hk
    by_cases hshort : (0 :: (addr >>> 8) % 256 :: addr % 256 :: data).length < 4096
    · simp only [write_data_loop] at hk ⊢
      rw [if_pos hshort] at hk ⊢
      simp at hk
      have hk0 : k = 0 := by omega
      subst hk0
      simp [reqAddr]
      rw [maskAddr_eq _ (by omega)]
    · have hlen : 4093 ≤ data.length := by simp at hshort; omega
      simp only [write_data_loop] at hk ⊢
      rw [if_neg hshort] at hk ⊢
      simp only [List.take_succ_cons, List.length_cons] at hk ⊢
      match k with
      | 0 =>
        simp [reqAddr]
        rw [maskAddr_eq _ (by omega)]
      | k + 1 =>
        simp only [List.getD_cons_succ]
        rw [ih (addr + 1000) (data.drop 4000) (by simp; omega) (by simp; omega)
            (by simp; omega) k (by omega)]
        ring

/-- C3: for payload lengths 4090 and 8200 (transfer ceiling 4096 bytes
with the 3-byte write header included, 4-byte word stride), the chunked
`write_data` yields the same final reference-memory contents as the
single unchunked request at the same base address, and chunk `k` carries
address `base + (bytes written before chunk k) / 4` (each earlier chunk
wrote 4000 bytes). -/
theorem c3_chunked_write_matches_reference (addr : Nat) (data : List Nat)
    (hlen : data.length = 4090 ∨ data.length = 8200) (haddr : addr + 2050 ≤ 65536) :
    (∀ mem pos, ((write_data addr data).foldl applyReq mem) pos
        = applyReq mem (0 :: (addr >>> 8) % 256 :: addr % 256 :: data) pos) ∧
    (∀ k, k < (write_data addr data).length →
        reqAddr ((write_data addr data).getD k []) = addr + 4000 * k / 4) := by
  have h2 : addr * 4 + data.length ≤ 262144 := by rcases hlen with h | h <;> omega
  have h1 : data.length ≤ 4000 * (data.length / 4000 + 1) + 4092 := by omega
  constructor
  · intro mem pos
    exact write_data_loop_semantics _ addr data h1 h2 mem pos
  · intro k hk
    unfold write_data at hk ⊢
    rw [write_data_loop_addrs _ addr data (by rcases hlen with h | h <;> omega) h1 h2 k hk]
    omega

/-- Witness for `c3_chunked_write_matches_reference`: an 8200-byte payload
of 7s at base address 0, final memory compared at byte position 4005. -/
theorem c3_chunked_write_matches_reference_witness :
    ((List.replicate 8200 7).length = 4090 ∨ (List.replicate 8200 7).length = 8200) ∧
    (0 : Nat) + 2050 ≤ 65536 ∧
    ((write_data 0 (List.replicate 8200 7)).foldl applyReq (fun _ => 0)) 4005
      = applyReq (fun _ => 0) (0 :: (0 >>> 8) % 256 :: 0 % 256 :: List.replicate 8200 7) 4005 :=
  ⟨Or.inr (List.length_replicate 8200 7), by omega,
   (c3_chunked_write_matches_reference 0 (List.replicate 8200 7)
      (Or.inr (List.length_replicate 8200 7)) (by omega)).1 (fun _ => 0) 4005⟩

/-- Extracting byte 0 is unaffected by truncating after it. -/
theorem take_getD_zero (l : List Nat) (k : Nat) (h : 1 ≤ k) : (l.take k).getD 0 0 = l.getD 0 0 := by
  simp [List.getD_eq_getElem?_getD, List.getElem?_take, show 0 < k from by omega]

/-- Extracting bytes 3..6 is unaffected by truncating after byte 6. -/
theorem take_slice_3_4 (l : List Nat) (k : Nat) (h : 7 ≤ k) :
    ((l.take k).drop 3).take 4 = (l.drop 3).take 4 := by
  rw [List.drop_take, List.take_take]
  congr 1
  omega

/-- Length of a truncation that stays inside the list. -/
theorem length_take_eq (l : List Nat) (k : Nat) (h : k ≤ l.length) : (l.take k).length = k := by
  simp [List.length_take]
  omega

/-- Processing a PROPER partial frame parks it and asks for more bytes:
either fewer than 14 bytes are buffered, or a WRITE / EEPROM_CONTENT
header announces a totalLength larger than what is buffered.  The
resulting state carries the partial bytes with `readMore` set and touches
nothing else. -/
theorem processData_partial (env : Env) (st : HState) (frame : List Nat) (k : Nat)
    (h1 : 1 ≤ k) (h2 : k < frame.length) (h3 : 14 ≤ frame.length)
    (h4 : k < 14 ∨ ((frame.getD 0 0 = COMMAND_WRITE ∨ frame.getD 0 0 = COMMAND_EEPROM_CONTENT) ∧
        beBytes ((frame.drop 3).take 4) = frame.length)) :
    processData env st (frame.take k)
      = StepRes.next { st with data := some (frame.take k), readMore := true } := by
  have hlt : (frame.take k).length = k := length_take_eq _ _ (by omega)
  by_cases hk14 : k < 14
  · simp only [processData]
    rw [if_pos (by rw [hlt]; omega)]
  · rcases h4 with h | ⟨hop, hcl⟩
    · omega
    · have hA1 : (frame.take k).getD 0 0 = frame.getD 0 0 := take_getD_zero _ _ h1
      have hA2 : beBytes (((frame.take k).drop 3).take 4) = frame.length := by
        rw [take_slice_3_4 _ _ (by omega)]; exact hcl
      rcases hop with hw | he
      · simp only [processData, hA1, hw, hA2, hlt,
          if_neg (show ¬(0 < k ∧ k < 14) from by omega),
          if_neg (show ¬(COMMAND_WRITE = COMMAND_READ) from by decide),
          eq_self_iff_true, if_true,
          if_neg (show ¬(frame.length < k) from by omega),
          if_pos (show 0 < frame.length ∧ k < frame.length from by omega)]
      · simp only [processData, hA1, he, hA2, hlt,
          if_neg (show ¬(0 < k ∧ k < 14) from by omega),
          if_neg (show ¬(COMMAND_EEPROM_CONTENT = COMMAND_READ) from by decide),
          if_neg (show ¬(COMMAND_EEPROM_CONTENT = COMMAND_WRITE) from by decide),
          if_neg (show ¬(COMMAND_EEPROM_CONTENT = COMMAND_EEPROM_FILE) from by decide),
          if_neg (show ¬(COMMAND_EEPROM_CONTENT = COMMAND_CHECKSUM) from by decide),
          eq_self_iff_true, if_true,
          if_neg (show ¬(frame.length < k) from by omega),
          if_pos (show 0 < frame.length ∧ k < frame.length from by omega)]

/-- One-iteration unfolding of the run loop. -/
theorem runLoop_succ (env : Env) (n : Nat) (st : HState) :
    runLoop env (n + 1) st
      = match loopStep env st with
        | StepRes.stop o => some o
        | StepRes.next s => runLoop env n s := rfl

/-- Fewer than 14 buffered bytes always park the data and set
`readMore`. -/
theorem processData_short (env : Env) (st : HState) (data : List Nat)
    (h1 : 0 < data.length) (h2 : data.length < 14) :
    processData env st data = StepRes.next { st with data := some data, readMore := true } := by
  simp only [processData]
  rw [if_pos ⟨h1, h2⟩]

/-- A single delivery of 1..13 bytes followed by nothing: the run either
runs out of fuel or ends cleanly having dispatched nothing and sent
nothing. -/
theorem runHandler_short_bytes (env : Env) (bytes : List Nat)
    (h1 : 1 ≤ bytes.length) (h2 : bytes.length ≤ 13) :
    ∀ fuel, runHandler env fuel [bytes] = none ∨ runHandler env fuel [bytes] = some ⟨[], [], false⟩ := by
  have hpd : processData env ⟨[], none, false, none, [], []⟩ bytes
      = StepRes.next ⟨[], some bytes, true, none, [], []⟩ :=
    processData_short _ _ _ (by omega) (by omega)
  have e1 : loopStep env ⟨[bytes], none, false, none, [], []⟩
      = processData env ⟨[], none, false, none, [], []⟩ bytes := by
    simp only [loopStep]
    rw [if_neg (show ¬(bytes.length = 0) from by omega)]
  intro fuel
  match fuel with
  | 0 => left; rfl
  | 1 =>
    left
    unfold runHandler
    rw [runLoop_succ, e1, hpd]
    rfl
  | n + 2 =>
    right
    unfold runHandler
    rw [runLoop_succ, e1, hpd]
    show runLoop env (n + 1) ⟨[], some bytes, true, none, [], []⟩ = some ⟨[], [], false⟩
    rw [runLoop_succ]
    rfl

/-- C4 (amended): (a) while only 1..13 bytes are buffered the handler
dispatches no operation and sends nothing; (b) splitting a complete frame
across two successive deliveries yields a dispatch result identical to
delivering it whole, for READ / WRITE / CHECKSUM / EEPROM_CONTENT frames
(any split point), and for EEPROM_FILE frames only when the split falls
before the 14-byte header boundary — for READ and CHECKSUM the 14-byte
frame size forces the split below 14 anyway, and WRITE / EEPROM_CONTENT
carry their totalLength in bytes 3..6. -/
theorem c4_no_dispatch_under_14_and_split_invariance (env : Env) (fuel : Nat) :
    (∀ bytes r, 1 ≤ bytes.length → bytes.length ≤ 13 →
        runHandler env fuel [bytes] = some r → r.ops = [] ∧ r.sends = []) ∧
    (∀ frame k, 1 ≤ k → k < frame.length → 14 ≤ frame.length →
        (k < 14 ∨ ((frame.getD 0 0 = COMMAND_WRITE ∨ frame.getD 0 0 = COMMAND_EEPROM_CONTENT) ∧
            beBytes ((frame.drop 3).take 4) = frame.length)) →
        runHandler env (fuel + 2) [frame.take k, frame.drop k]
          = runHandler env (fuel + 1) [frame]) := by
  constructor
  · intro bytes r ha hb hr
    rcases runHandler_short_bytes env bytes ha hb fuel with h | h <;> rw [h] at hr
    · cases hr
    · cases hr
      exact ⟨rfl, rfl⟩
  · intro frame k h1 h2 h3 h4
    have hlt : (frame.take k).length = k := length_take_eq _ _ (by omega)
    have e1 : loopStep env ⟨[frame.take k, frame.drop k], none, false, none, [], []⟩
        = processData env ⟨[frame.drop k], none, false, none, [], []⟩ (frame.take k) := by
      simp only [loopStep]
      rw [if_neg (show ¬((frame.take k).length = 0) from by rw [hlt]; omega)]
    have e2 := processData_partial env ⟨[frame.drop k], none, false, none, [], []⟩ frame k h1 h2 h3 h4
    have e3 : loopStep env ⟨[frame.drop k], some (frame.take k), true, none, [], []⟩
        = processData env ⟨[], none, false, none, [], []⟩ frame := by
      simp only [loopStep]
      rw [List.take_append_drop]
      rw [if_pos trivial]
    have e4 : loopStep env ⟨[frame], none, false, none, [], []⟩
        = processData env ⟨[], none, false, none, [], []⟩ frame := by
      simp only [loopStep]
      rw [if_neg (show ¬(frame.length = 0) from by omega)]
    unfold runHandler
    rw [runLoop_succ, e1, e2]
    show runLoop env (fuel + 1) ⟨[frame.drop k], some (frame.take k), true, none, [], []⟩
        = runLoop env (fuel + 1) ⟨[frame], none, false, none, [], []⟩
    rw [runLoop_succ, runLoop_succ, e3, e4]

/-- Witness for `c4_no_dispatch_under_14_and_split_invariance`: part (a)
on the 3-byte delivery `[1, 2, 3]`, part (b) on the complete WRITE frame
`writeFrame16` split after 5 bytes. -/
theorem c4_no_dispatch_under_14_and_split_invariance_witness :
    (1 ≤ ([1, 2, 3] : List Nat).length ∧ ([1, 2, 3] : List Nat).length ≤ 13 ∧
     runHandler envId 2 [[1, 2, 3]] = some ⟨[], [], false⟩ ∧
     (⟨[], [], false⟩ : RunOut).ops = [] ∧ (⟨[], [], false⟩ : RunOut).sends = []) ∧
    (1 ≤ 5 ∧ 5 < writeFrame16.length ∧ 14 ≤ writeFrame16.length ∧
     runHandler envId (1 + 2) [writeFrame16.take 5, writeFrame16.drop 5]
       = runHandler envId (1 + 1) [writeFrame16]) := by
  constructor
  · refine ⟨by decide, by decide, by decide, ?_, ?_⟩
    · exact ((c4_no_dispatch_under_14_and_split_invariance envId 2).1 [1, 2, 3]
        ⟨[], [], false⟩ (by decide) (by decide) (by decide)).1
    · exact ((c4_no_dispatch_under_14_and_split_invariance envId 2).1 [1, 2, 3]
        ⟨[], [], false⟩ (by decide) (by decide) (by decide)).2
  · exact ⟨by decide, by decide, by decide,
      (c4_no_dispatch_under_14_and_split_invariance envId 1).2 writeFrame16 5
        (by decide) (by decide) (by decide) (Or.inl (by decide))⟩

/-- C5 (amended): for a complete WRITE frame (totalLength field equal to
its byte length, nonzero declared data length) delivered together with
extra bytes, the handler consumes exactly the frame's totalLength bytes,
dispatches the write of exactly the frame's payload, and the leftover
bytes seed the next frame's processing (the run continues as if the
leftover were the buffered data).  This pipelining holds only for the
WRITE and EEPROM_CONTENT branches; READ, CHECKSUM and EEPROM_FILE leave
`buffer` unset and discard leftovers (see the C5 counterexample), and the
EEPROM_CONTENT dispatch itself crashes before continuing. -/
theorem c5_write_leftover_seeds_next_frame (env : Env) (fuel : Nat) (frame rest : List Nat)
    (hop : frame.getD 0 0 = COMMAND_WRITE)
    (hcl : beBytes ((frame.drop 3).take 4) = frame.length)
    (hlen : 14 ≤ frame.length)
    (hdl : decode_write_length frame ≠ 0)
    (hrest : 1 ≤ rest.length) :
    runHandler env (fuel + 1) [frame ++ rest]
      = runLoop env fuel ⟨[], some rest, false, some none,
          [Op.write (decode_write_addr frame) (frame.drop 14)], []⟩ := by
  have hLa : (frame ++ rest).length = frame.length + rest.length := List.length_append _ _
  have hg0 : (frame ++ rest).getD 0 0 = frame.getD 0 0 := List.getD_append _ _ _ _ (by omega)
  have hsl : ((frame ++ rest).drop 3).take 4 = (frame.drop 3).take 4 := by
    rw [List.drop_append_of_le_length (by omega)]
    rw [List.take_append_of_le_length (by simp; omega)]
  have hbuf : (frame ++ rest).drop frame.length = rest := List.drop_left _ _
  have hdat : (frame ++ rest).take frame.length = frame := List.take_left _ _
  have e1 : loopStep env ⟨[frame ++ rest], none, false, none, [], []⟩
      = processData env ⟨[], none, false, none, [], []⟩ (frame ++ rest) := by
    simp only [loopStep]
    rw [if_neg (show ¬((frame ++ rest).length = 0) from by rw [hLa]; omega)]
  have e2 : processData env ⟨[], none, false, none, [], []⟩ (frame ++ rest)
      = StepRes.next ⟨[], some rest, false, some none,
          [Op.write (decode_write_addr frame) (frame.drop 14)], []⟩ := by
    simp only [processData, hg0, hop, hsl, hcl, hLa, hbuf, hdat,
      if_neg (show ¬(0 < frame.length + rest.length ∧ frame.length + rest.length < 14) from
        by omega),
      if_neg (show ¬(COMMAND_WRITE = COMMAND_READ) from by decide),
      eq_self_iff_true, if_true,
      if_pos (show frame.length < frame.length + rest.length from by omega),
      if_neg (show ¬(0 < frame.length ∧ frame.length < frame.length) from by omega),
      handle_write, if_neg hdl, dispatchEnd, List.nil_append]
  unfold runHandler
  rw [runLoop_succ, e1, e2]

/-- Witness for `c5_write_leftover_seeds_next_frame`: the complete WRITE
frame `writeFrame16` followed by the leftover byte 42. -/
theorem c5_write_leftover_seeds_next_frame_witness :
    (writeFrame16.getD 0 0 = COMMAND_WRITE ∧
     beBytes ((writeFrame16.drop 3).take 4) = writeFrame16.length ∧
     14 ≤ writeFrame16.length ∧ decode_write_length writeFrame16 ≠ 0 ∧
     1 ≤ ([42] : List Nat).length) ∧
    runHandler envId (2 + 1) [writeFrame16 ++ [42]]
      = runLoop envId 2 ⟨[], some [42], false, some none,
          [Op.write (decode_write_addr writeFrame16) (writeFrame16.drop 14)], []⟩ :=
  ⟨⟨by decide, by decide, by decide, by decide, by decide⟩,
   c5_write_leftover_seeds_next_frame envId 2 writeFrame16 [42]
     (by decide) (by decide) (by decide) (by decide) (by decide)⟩
